import Mathlib

/-!
Verification of the movie-recommender repository: a semantic-search movie
recommender.  The ingestion pipeline (scripts/embed_movies.py, given in full
in docs/plans/2026-02-02-movie-recommender-implementation.md) reads raw movie
records, filters them, builds an embedding text per movie, embeds it and
upserts (id, metadata, vector) rows keyed by id into a Supabase pgvector
store.  The query service (backend/main.py, same document) embeds a free-text
query and calls the SQL function match_movies (deployed SQL in the
repository) which orders rows by cosine distance and returns the closest
match_count rows.

The embedding provider and the pgvector distance operator are external
collaborators: they are modelled as explicit function parameters
(embed : String → List ℚ and dist : List ℚ → List ℚ → ℚ), so every theorem
about the pipeline holds for an arbitrary embedding function and an arbitrary
distance operator.  Vector components are modelled as rationals.
-/

/-- Input of build_embedding_text: the fields the Python function reads from
a dataframe row (row.get defaults missing title/overview to ""). -/
structure EmbedRow where
  title : String
  overview : String
  genre_names : List String
  keyword_names : List String
deriving DecidableEq

/-- Shallow embedding of build_embedding_text (scripts/embed_movies.py):
join ", " over genre names and over the first 20 keyword names, collect the
non-empty segments starting from the title, and join the segments with ". ".
A Python string is truthy exactly when it is non-empty, hence the ≠ ""
conditions. -/
def build_embedding_text (row : EmbedRow) : String :=
  let title := row.title
  let overview := row.overview
  let genres := String.intercalate ", " row.genre_names
  let keywords := String.intercalate ", " (row.keyword_names.take 20)
  let parts := [title]
  let parts := if overview ≠ "" then parts ++ [overview] else parts
  let parts := if genres ≠ "" then parts ++ ["Genres: " ++ genres] else parts
  let parts := if keywords ≠ "" then parts ++ ["Keywords: " ++ keywords] else parts
  String.intercalate ". " parts

/-- A stored row of the movies table (backend/supabase_setup.sql): nullable
SQL columns are Option, the nullable VECTOR column is Option (List ℚ). -/
structure MovieRow where
  id : Int
  title : String
  overview : Option String
  release_date : Option String
  poster_path : Option String
  genres : Option (List String)
  keywords : Option (List String)
  vote_average : Option ℚ
  vote_count : Option Int
  embedding : Option (List ℚ)
deriving DecidableEq

/-- A row of the table returned by the SQL function match_movies. -/
structure MatchRow where
  id : Int
  title : String
  overview : Option String
  release_date : Option String
  poster_path : Option String
  genres : Option (List String)
  vote_average : Option ℚ
  similarity : ℚ
deriving DecidableEq

/-- Postgres rejects a negative LIMIT argument with an error
("LIMIT must not be negative"); this is the only store-level failure the
model needs. -/
inductive StoreError
  | negativeLimit
deriving DecidableEq

/-- Ordering key of match_movies: ORDER BY m.embedding <=> query_embedding,
ascending distance of the stored vector to the query vector. -/
def distKey (dist : List ℚ → List ℚ → ℚ) (q : List ℚ) (a b : MovieRow) : Prop :=
  dist (a.embedding.getD []) q ≤ dist (b.embedding.getD []) q

instance (dist : List ℚ → List ℚ → ℚ) (q : List ℚ) : DecidableRel (distKey dist q) :=
  fun a b => inferInstanceAs (Decidable (_ ≤ _))

/-- The SELECT list of match_movies: the metadata columns of the row plus
similarity computed as 1 - (m.embedding <=> query_embedding). -/
def toMatchRow (dist : List ℚ → List ℚ → ℚ) (q : List ℚ) (m : MovieRow) : MatchRow :=
  { id := m.id, title := m.title, overview := m.overview,
    release_date := m.release_date, poster_path := m.poster_path,
    genres := m.genres, vote_average := m.vote_average,
    similarity := 1 - dist (m.embedding.getD []) q }

/-- Shallow embedding of the deployed SQL function match_movies: keep the
rows WHERE m.embedding IS NOT NULL, ORDER BY m.embedding <=> query_embedding
(modelled as a stable sort on the table's row order, one behaviour Postgres
may choose since no secondary sort key is given), and LIMIT match_count.
The pgvector cosine-distance operator <=> is the parameter dist. -/
def match_movies (dist : List ℚ → List ℚ → ℚ) (store : List MovieRow)
    (query_embedding : List ℚ) (match_count : Int) : Except StoreError (List MatchRow) :=
  if match_count < 0 then .error .negativeLimit
  else
    let eligible := store.filter fun m => m.embedding.isSome
    let ordered := eligible.insertionSort (distKey dist query_embedding)
    .ok ((ordered.take match_count.toNat).map (toMatchRow dist query_embedding))

/-- Request body of POST /search (backend/main.py): query string and a limit
defaulting to 10, with no further validation declared on either field. -/
structure SearchRequest where
  query : String
  limit : Int := 10
deriving DecidableEq

/-- Response row of POST /search: MovieResult of backend/main.py, whose
genres field is a plain (never null) list. -/
structure MovieResult where
  id : Int
  title : String
  overview : Option String
  release_date : Option String
  poster_path : Option String
  genres : List String
  vote_average : Option ℚ
  similarity : ℚ
deriving DecidableEq

/-- Observable external calls of the /search handler: the OpenAI embedding
call and the Supabase RPC to match_movies. -/
inductive Effect
  | embedCall (input : String)
  | rpcCall (match_count : Int)
deriving DecidableEq

/-- Outcome of a /search request: a 200 with results, or an HTTP error
(the 400 raised by the handler, or the 500 FastAPI produces when the
store call raises). -/
inductive SearchOutcome
  | ok (results : List MovieResult)
  | httpError (status : Nat) (detail : String)
deriving DecidableEq

/-- Python str.strip(): drop leading and trailing whitespace characters.
Structural recursion over the character list, so concrete instances reduce
in the kernel. -/
def pyStrip (s : String) : String :=
  String.mk (((s.data.dropWhile Char.isWhitespace).reverse.dropWhile
    Char.isWhitespace).reverse)

/-- Python expression row["genres"] or []: a falsy value (null or the empty
list) is replaced by the empty list. -/
def genresOrEmpty (g : Option (List String)) : List String :=
  match g with
  | none => []
  | some l => if l.isEmpty then [] else l

/-- Building one MovieResult from one row returned by the RPC
(backend/main.py, the loop over result.data). -/
def toMovieResult (r : MatchRow) : MovieResult :=
  { id := r.id, title := r.title, overview := r.overview,
    release_date := r.release_date, poster_path := r.poster_path,
    genres := genresOrEmpty r.genres, vote_average := r.vote_average,
    similarity := r.similarity }

/-- Shallow embedding of the /search handler (backend/main.py): reject a
query that is empty after stripping whitespace (pyStrip) with a 400 before any
external call; otherwise embed the query, call the match_movies RPC with the
request's limit, and map the returned rows to MovieResult.  A store-level
error (negative LIMIT) escapes the handler, which FastAPI surfaces as a 500.
The second component records the external calls made. -/
def search_movies (embed : String → List ℚ) (dist : List ℚ → List ℚ → ℚ)
    (store : List MovieRow) (req : SearchRequest) : SearchOutcome × List Effect :=
  if pyStrip req.query = "" then
    (.httpError 400 "Query cannot be empty", [])
  else
    let query_embedding := embed req.query
    match match_movies dist store query_embedding req.limit with
    | .error _ =>
        (.httpError 500 "Internal Server Error", [.embedCall req.query, .rpcCall req.limit])
    | .ok rows =>
        (.ok (rows.map toMovieResult), [.embedCall req.query, .rpcCall req.limit])

instance (dist : List ℚ → List ℚ → ℚ) (q : List ℚ) : IsTotal MovieRow (distKey dist q) :=
  ⟨fun _ _ => le_total _ _⟩

instance (dist : List ℚ → List ℚ → ℚ) (q : List ℚ) : IsTrans MovieRow (distKey dist q) :=
  ⟨fun _ _ _ hab hbc => le_trans hab hbc⟩

/-- Embedding function used to instantiate witnesses: every text maps to the
one-component vector [1]. -/
def embedW : String → List ℚ := fun _ => [1]

/-- Distance operator used to instantiate witnesses: every pair of vectors is
at distance 0. -/
def distW : List ℚ → List ℚ → ℚ := fun _ _ => 0

/-- A store row with the given id and embedding and no optional metadata. -/
def mkRow (i : Int) (e : Option (List ℚ)) : MovieRow :=
  ⟨i, "t", none, none, none, none, none, none, none, e⟩

/-- Result ids of a match_movies call, empty on a store error. -/
def resultIds (e : Except StoreError (List MatchRow)) : List Int :=
  match e with
  | .error _ => []
  | .ok rows => rows.map MatchRow.id

/-- Embedding model identifier the ingestion script embeds with
(EMBEDDING_MODEL in scripts/embed_movies.py). -/
def ingestEmbeddingModel : String := "text-embedding-3-large"

/-- Embedding model identifier the query service embeds with
(EMBEDDING_MODEL in backend/main.py). -/
def backendEmbeddingModel : String := "text-embedding-3-large"

/-- Output dimensionality per model identifier, as the repository documents
it: the design document fixes text-embedding-3-large at 3072 dimensions and
the plan's movies schema declares embedding VECTOR(3072). -/
def embeddingModelDim (model : String) : Nat :=
  if model = "text-embedding-3-large" then 3072 else 0

/-- Vector dimension the deployed match_movies SQL function declares for its
query argument: query_embedding VECTOR(1536). -/
def matchMoviesDeclaredDim : Nat := 1536

/-- Vector dimension the deployed movies table schema declares for the
stored embedding column: embedding VECTOR(1536). -/
def moviesTableDeclaredDim : Nat := 1536

/-- A raw movie record as the ingestion pipeline sees it after CSV parsing
and the keywords left join (scripts/embed_movies.py): pd.to_numeric with
errors="coerce" leaves id nullable, title and overview are nullable strings,
genre_names and keyword_names are the parsed name lists (the keyword side of
the left join defaults to the empty list). -/
structure SrcRow where
  id : Option Int
  title : Option String
  overview : Option String
  release_date : Option String
  poster_path : Option String
  genre_names : List String
  keyword_names : List String
  vote_average : Option ℚ
  vote_count : Option Int
deriving DecidableEq

/-- The validity filter of the ingestion pipeline (the boolean mask in main):
id parses as a number, title is present, overview is present and its length
is strictly greater than 10 characters. -/
def validMovie (r : SrcRow) : Bool :=
  r.id.isSome && r.title.isSome &&
    (match r.overview with
     | some o => decide (10 < o.length)
     | none => false)

/-- A source record with the given overview, an id and a title. -/
def srcRowWithOverview (o : String) : SrcRow :=
  ⟨some 1, some "t", some o, none, none, [], [], none, none⟩

/-- The store already holds a row with the given movie id. -/
def hasId (i : Int) (s : List MovieRow) : Bool :=
  s.any fun x => x.id == i

/-- Overwrite every stored row carrying the record's id with the record. -/
def overwriteById (r : MovieRow) (s : List MovieRow) : List MovieRow :=
  s.map fun x => if x.id == r.id then r else x

/-- Supabase upsert of one record keyed by the primary-key id: update the
matching row in place, or append the record when no row has its id. -/
def upsert (r : MovieRow) (s : List MovieRow) : List MovieRow :=
  if hasId r.id s then overwriteById r s else s ++ [r]

/-- Upserting the pipeline's records in order (batching in groups of 100
does not change the sequential order of the per-id writes). -/
def upsertAll (rs : List MovieRow) (s : List MovieRow) : List MovieRow :=
  rs.foldl (fun acc r => upsert r acc) s

/-- drop_duplicates(subset=["id"]): keep the first record of each id; seen
accumulates the ids already kept. -/
def dropDupById : List SrcRow → List Int → List SrcRow
  | [], _ => []
  | r :: rs, seen =>
      if r.id.getD 0 ∈ seen then dropDupById rs seen
      else r :: dropDupById rs (r.id.getD 0 :: seen)

/-- The stored record built from a kept source record (the record dict of
the batch loop in scripts/embed_movies.py): release date truncated to its
first 10 characters, keywords capped at 20, and the embedding of the
record's embedding text. -/
def toStoredRecord (embed : String → List ℚ) (r : SrcRow) : MovieRow :=
  { id := r.id.getD 0,
    title := r.title.getD "",
    overview := r.overview,
    release_date := r.release_date.map fun s => s.take 10,
    poster_path := r.poster_path,
    genres := some r.genre_names,
    keywords := some (r.keyword_names.take 20),
    vote_average := r.vote_average,
    vote_count := r.vote_count,
    embedding := some (embed (build_embedding_text
      ⟨r.title.getD "", r.overview.getD "", r.genre_names, r.keyword_names⟩)) }

/-- One full ingestion run (main of scripts/embed_movies.py): filter the
valid records, deduplicate by id, build and embed each record, and upsert
them all in order into the store. -/
def ingestRun (embed : String → List ℚ) (src : List SrcRow)
    (store : List MovieRow) : List MovieRow :=
  upsertAll ((dropDupById (src.filter validMovie) []).map (toStoredRecord embed)) store

/-- Joining one segment with ". " is the segment itself. -/
theorem intercalate_dot_one (a : String) : String.intercalate ". " [a] = a := rfl

/-- Joining two segments with ". ". -/
theorem intercalate_dot_two (a b : String) :
    String.intercalate ". " [a, b] = a ++ ". " ++ b := rfl

/-- Joining three segments with ". ". -/
theorem intercalate_dot_three (a b c : String) :
    String.intercalate ". " [a, b, c] = a ++ ". " ++ b ++ ". " ++ c := rfl

/-- Joining four segments with ". ". -/
theorem intercalate_dot_four (a b c d : String) :
    String.intercalate ". " [a, b, c, d] = a ++ ". " ++ b ++ ". " ++ c ++ ". " ++ d := rfl

/-- C1 counterexample: on the record with title "T", overview "O", one genre
"G" and no keywords, build_embedding_text yields "T. O. Genres: G" — a period
and a space between the overview and the "Genres:" segment — and not the
claimed "T. O Genres: G" with a single space there. -/
theorem c1_overview_genres_separator_counterexample :
    build_embedding_text ⟨"T", "O", ["G"], []⟩ = "T. O. Genres: G" ∧
      build_embedding_text ⟨"T", "O", ["G"], []⟩ ≠ "T. O Genres: G" := by
  refine ⟨rfl, ?_⟩
  decide

/-- C1 amended: for every record with a non-empty title, the builder emits
the title followed by the non-empty segments among overview,
"Genres: " ++ genres and "Keywords: " ++ keywords, every adjacent pair of
segments separated by ". " (a period and a space, also between the overview
and the "Genres:" segment); genres is the ", "-join of the genre names,
keywords the ", "-join of the first 20 keyword names, and an absent segment
contributes nothing (no trailing punctuation artifacts). -/
theorem c1_build_embedding_text_closed_form (row : EmbedRow) (h : row.title ≠ "") :
    build_embedding_text row =
      row.title
        ++ (if row.overview = "" then "" else ". " ++ row.overview)
        ++ (if String.intercalate ", " row.genre_names = "" then ""
            else ". " ++ ("Genres: " ++ String.intercalate ", " row.genre_names))
        ++ (if String.intercalate ", " (row.keyword_names.take 20) = "" then ""
            else ". " ++ ("Keywords: "
              ++ String.intercalate ", " (row.keyword_names.take 20))) := by
  unfold build_embedding_text
  rcases eq_or_ne row.overview "" with ho | ho <;>
    rcases eq_or_ne (String.intercalate ", " row.genre_names) "" with hg | hg <;>
      rcases eq_or_ne (String.intercalate ", " (row.keyword_names.take 20)) "" with hk | hk <;>
        simp [ho, hg, hk, intercalate_dot_one, intercalate_dot_two, intercalate_dot_three,
          intercalate_dot_four, String.append_assoc]

/-- C1 witness: the closed form evaluated on a concrete record with all
segments present. -/
theorem c1_build_embedding_text_closed_form_witness :
    (("Titanic" : String) ≠ "") ∧
      build_embedding_text ⟨"Titanic", "A ship sinks", ["Drama", "Romance"], ["iceberg", "ship"]⟩ =
        "Titanic"
          ++ (if ("A ship sinks" : String) = "" then "" else ". " ++ "A ship sinks")
          ++ (if String.intercalate ", " ["Drama", "Romance"] = "" then ""
              else ". " ++ ("Genres: " ++ String.intercalate ", " ["Drama", "Romance"]))
          ++ (if String.intercalate ", " (["iceberg", "ship"].take 20) = "" then ""
              else ". " ++ ("Keywords: "
                ++ String.intercalate ", " (["iceberg", "ship"].take 20))) :=
  ⟨by decide, c1_build_embedding_text_closed_form
    ⟨"Titanic", "A ship sinks", ["Drama", "Romance"], ["iceberg", "ship"]⟩ (by decide)⟩

/-- With a non-negative limit, match_movies succeeds and returns the sorted,
truncated projection of the eligible rows. -/
theorem match_movies_eq_ok (dist : List ℚ → List ℚ → ℚ) (store : List MovieRow)
    (q : List ℚ) (k : Int) (hk : ¬ k < 0) :
    match_movies dist store q k =
      .ok ((((store.filter fun m => m.embedding.isSome).insertionSort
        (distKey dist q)).take k.toNat).map (toMatchRow dist q)) := by
  simp only [match_movies, if_neg hk]

/-- Every row match_movies returns is the projection of a stored row whose
embedding is non-null. -/
theorem match_movies_mem (dist : List ℚ → List ℚ → ℚ) (store : List MovieRow)
    (q : List ℚ) (k : Int) (rows : List MatchRow)
    (h : match_movies dist store q k = .ok rows) :
    ∀ r ∈ rows, ∃ m ∈ store, m.embedding.isSome ∧ r = toMatchRow dist q m := by
  rcases lt_or_le k 0 with hk | hk
  · simp [match_movies, hk] at h
  · rw [match_movies_eq_ok dist store q k (not_lt.mpr hk)] at h
    injection h with h
    intro r hr
    rw [← h] at hr
    obtain ⟨m, hm, rfl⟩ := List.mem_map.mp hr
    have hm' := List.mem_of_mem_take hm
    have hm'' := (List.perm_insertionSort (distKey dist q) _).mem_iff.mp hm'
    obtain ⟨hms, hsome⟩ := List.mem_filter.mp hm''
    exact ⟨m, hms, hsome, rfl⟩

/-- match_movies returns at most match_count rows. -/
theorem match_movies_length (dist : List ℚ → List ℚ → ℚ) (store : List MovieRow)
    (q : List ℚ) (k : Int) (rows : List MatchRow)
    (h : match_movies dist store q k = .ok rows) :
    rows.length ≤ k.toNat := by
  rcases lt_or_le k 0 with hk | hk
  · simp [match_movies, hk] at h
  · rw [match_movies_eq_ok dist store q k (not_lt.mpr hk)] at h
    injection h with h
    rw [← h, List.length_map, List.length_take]
    exact min_le_left _ _

/-- match_movies returns its rows in non-increasing order of similarity. -/
theorem match_movies_sorted (dist : List ℚ → List ℚ → ℚ) (store : List MovieRow)
    (q : List ℚ) (k : Int) (rows : List MatchRow)
    (h : match_movies dist store q k = .ok rows) :
    rows.Pairwise (fun a b => b.similarity ≤ a.similarity) := by
  rcases lt_or_le k 0 with hk | hk
  · simp [match_movies, hk] at h
  · rw [match_movies_eq_ok dist store q k (not_lt.mpr hk)] at h
    injection h with h
    rw [← h]
    have hs : ((store.filter fun m => m.embedding.isSome).insertionSort
        (distKey dist q)).Pairwise (distKey dist q) :=
      List.sorted_insertionSort (distKey dist q) _
    have ht := hs.sublist (List.take_sublist k.toNat _)
    exact ht.map (toMatchRow dist q) fun a b hab => sub_le_sub_left hab 1

/-- C4: a /search request whose query is empty after stripping whitespace is
answered with the 400 "Query cannot be empty" error, and neither the
embedding provider nor the store is called (the effect trace is empty). -/
theorem c4_blank_query_rejected_before_any_call (embed : String → List ℚ)
    (dist : List ℚ → List ℚ → ℚ) (store : List MovieRow) (req : SearchRequest)
    (h : pyStrip req.query = "") :
    search_movies embed dist store req = (.httpError 400 "Query cannot be empty", []) := by
  simp [search_movies, h]

/-- C4 witness: the whitespace-only query "  " is rejected with a 400 and an
empty effect trace. -/
theorem c4_blank_query_rejected_before_any_call_witness :
    (pyStrip "  " = "") ∧
      search_movies embedW distW [mkRow 1 (some [1])] { query := "  ", limit := 10 } =
        (.httpError 400 "Query cannot be empty", []) :=
  ⟨by decide, c4_blank_query_rejected_before_any_call embedW distW [mkRow 1 (some [1])]
    { query := "  ", limit := 10 } (by decide)⟩

/-- A successful /search: non-blank query and non-negative limit give the
mapped, truncated, sorted rows and the two external calls. -/
theorem search_movies_ok_eq (embed : String → List ℚ) (dist : List ℚ → List ℚ → ℚ)
    (store : List MovieRow) (req : SearchRequest)
    (hq : pyStrip req.query ≠ "") (hk : ¬ req.limit < 0) :
    search_movies embed dist store req =
      (.ok (((((store.filter fun m => m.embedding.isSome).insertionSort
          (distKey dist (embed req.query))).take req.limit.toNat).map
            (toMatchRow dist (embed req.query))).map toMovieResult),
        [.embedCall req.query, .rpcCall req.limit]) := by
  simp only [search_movies, if_neg hq,
    match_movies_eq_ok dist store (embed req.query) req.limit hk]

/-- C3: every successful /search response with a positive limit has at most
limit rows, the rows are sorted in non-increasing order of similarity, and
each returned row's similarity is 1 minus the distance between that row's
stored vector and the query vector. -/
theorem c3_results_bounded_sorted_similarity (embed : String → List ℚ)
    (dist : List ℚ → List ℚ → ℚ) (store : List MovieRow) (req : SearchRequest)
    (results : List MovieResult)
    (hk : 0 < req.limit)
    (h : (search_movies embed dist store req).1 = .ok results) :
    (results.length : Int) ≤ req.limit ∧
      results.Pairwise (fun a b => b.similarity ≤ a.similarity) ∧
      ∀ r ∈ results, ∃ m ∈ store, ∃ v, m.embedding = some v ∧
        r.similarity = 1 - dist v (embed req.query) := by
  have hnneg : ¬ req.limit < 0 := by omega
  rcases eq_or_ne (pyStrip req.query) "" with hq | hq
  · simp [search_movies, hq] at h
  · have hmm := match_movies_eq_ok dist store (embed req.query) req.limit hnneg
    rw [search_movies_ok_eq embed dist store req hq hnneg] at h
    simp only [SearchOutcome.ok.injEq] at h
    subst h
    refine ⟨?_, ?_, ?_⟩
    · have hlen : ((((store.filter fun m => m.embedding.isSome).insertionSort
          (distKey dist (embed req.query))).take req.limit.toNat).map
            (toMatchRow dist (embed req.query))).length ≤ req.limit.toNat := by
        rw [List.length_map, List.length_take]
        exact min_le_left _ _
      rw [List.length_map]
      omega
    · have hs := match_movies_sorted dist store (embed req.query) req.limit _ hmm
      exact hs.map toMovieResult fun a b hab => hab
    · intro r hr
      obtain ⟨r', hr', rfl⟩ := List.mem_map.mp hr
      obtain ⟨m, hm, hsome, rfl⟩ :=
        match_movies_mem dist store (embed req.query) req.limit _ hmm r' hr'
      obtain ⟨v, hv⟩ := Option.isSome_iff_exists.mp hsome
      exact ⟨m, hm, v, hv, by simp [toMovieResult, toMatchRow, hv]⟩

/-- C3 witness: a one-row store with query "a" and limit 10. -/
theorem c3_results_bounded_sorted_similarity_witness :
    ((0 : Int) < 10) ∧
      ((search_movies embedW distW [mkRow 1 (some [2])] { query := "a", limit := 10 }).1 =
        .ok [toMovieResult (toMatchRow distW (embedW "a") (mkRow 1 (some [2])))]) ∧
      ((([toMovieResult (toMatchRow distW (embedW "a") (mkRow 1 (some [2])))].length : Int) ≤ 10) ∧
        [toMovieResult (toMatchRow distW (embedW "a") (mkRow 1 (some [2])))].Pairwise
          (fun a b => b.similarity ≤ a.similarity) ∧
        ∀ r ∈ [toMovieResult (toMatchRow distW (embedW "a") (mkRow 1 (some [2])))],
          ∃ m ∈ [mkRow 1 (some [2])], ∃ v, m.embedding = some v ∧
            r.similarity = 1 - distW v (embedW "a")) :=
  ⟨by decide, by rfl,
    c3_results_bounded_sorted_similarity embedW distW [mkRow 1 (some [2])]
      { query := "a", limit := 10 }
      [toMovieResult (toMatchRow distW (embedW "a") (mkRow 1 (some [2])))]
      (by decide) (by rfl)⟩

/-- Coercing a null SQL genres value the way the Python or-expression does is
exactly Option.getD with default the empty list. -/
theorem genresOrEmpty_eq_getD (g : Option (List String)) : genresOrEmpty g = g.getD [] := by
  cases g with
  | none => rfl
  | some l => cases l <;> rfl

/-- C10: every row of a successful /search response carries a plain genres
list obtained from the stored row's nullable genres column with null coerced
to the empty list. -/
theorem c10_genres_null_coerced_to_empty_list (embed : String → List ℚ)
    (dist : List ℚ → List ℚ → ℚ) (store : List MovieRow) (req : SearchRequest)
    (results : List MovieResult)
    (h : (search_movies embed dist store req).1 = .ok results) :
    ∀ r ∈ results, ∃ m ∈ store, m.embedding.isSome ∧ r.genres = m.genres.getD [] := by
  rcases eq_or_ne (pyStrip req.query) "" with hq | hq
  · simp [search_movies, hq] at h
  · rcases lt_or_le req.limit 0 with hneg | hpos
    · simp [search_movies, hq, match_movies, hneg] at h
    · have hnneg : ¬ req.limit < 0 := by omega
      have hmm := match_movies_eq_ok dist store (embed req.query) req.limit hnneg
      rw [search_movies_ok_eq embed dist store req hq hnneg] at h
      simp only [SearchOutcome.ok.injEq] at h
      subst h
      intro r hr
      obtain ⟨r', hr', rfl⟩ := List.mem_map.mp hr
      obtain ⟨m, hm, hsome, rfl⟩ :=
        match_movies_mem dist store (embed req.query) req.limit _ hmm r' hr'
      exact ⟨m, hm, hsome, by simp [toMovieResult, toMatchRow, genresOrEmpty_eq_getD]⟩

/-- C10 witness: a stored row whose genres column is null is returned with
the empty genres list. -/
theorem c10_genres_null_coerced_to_empty_list_witness :
    ((search_movies embedW distW [mkRow 3 (some [5])] { query := "a", limit := 10 }).1 =
      .ok [toMovieResult (toMatchRow distW (embedW "a") (mkRow 3 (some [5])))]) ∧
      (∃ m ∈ [mkRow 3 (some [5])], m.embedding.isSome ∧
        (toMovieResult (toMatchRow distW (embedW "a") (mkRow 3 (some [5])))).genres =
          m.genres.getD []) :=
  ⟨by rfl,
    c10_genres_null_coerced_to_empty_list embedW distW [mkRow 3 (some [5])]
      { query := "a", limit := 10 }
      [toMovieResult (toMatchRow distW (embedW "a") (mkRow 3 (some [5])))] (by rfl)
      (toMovieResult (toMatchRow distW (embedW "a") (mkRow 3 (some [5])))) (by simp)⟩

/-- C7: match_movies behaves identically on the store and on the store with
its null-vector rows removed (so null-vector rows never cause an error a
null-free store would not cause), with a non-negative limit it succeeds, and
every returned row is the projection of a stored row whose vector is
non-null. -/
theorem c7_null_vector_rows_invisible (dist : List ℚ → List ℚ → ℚ)
    (store : List MovieRow) (q : List ℚ) (k : Int) :
    match_movies dist store q k =
      match_movies dist (store.filter fun m => m.embedding.isSome) q k ∧
    (0 ≤ k → ∃ rows, match_movies dist store q k = .ok rows) ∧
    (∀ rows, match_movies dist store q k = .ok rows →
      ∀ r ∈ rows, ∃ m ∈ store, m.embedding.isSome ∧ r = toMatchRow dist q m) := by
  refine ⟨?_, ?_, ?_⟩
  · simp [match_movies, List.filter_filter]
  · intro hk
    exact ⟨_, match_movies_eq_ok dist store q k (by omega)⟩
  · intro rows h
    exact match_movies_mem dist store q k rows h

/-- C7 witness: a store holding one null-vector row and one embedded row. -/
theorem c7_null_vector_rows_invisible_witness :
    (match_movies distW [mkRow 1 none, mkRow 2 (some [1])] [1] 10 =
      match_movies distW
        ([mkRow 1 none, mkRow 2 (some [1])].filter fun m => m.embedding.isSome) [1] 10) ∧
    (∃ rows, match_movies distW [mkRow 1 none, mkRow 2 (some [1])] [1] 10 = .ok rows) :=
  ⟨(c7_null_vector_rows_invisible distW [mkRow 1 none, mkRow 2 (some [1])] [1] 10).1,
    (c7_null_vector_rows_invisible distW [mkRow 1 none, mkRow 2 (some [1])] [1] 10).2.1
      (by decide)⟩

/-- C5 counterexample: a catalog whose table order is [id 2, id 1] with
identical stored vectors.  Both rows come back with equal similarity, but in
the order [2, 1] — the table's order, not the claimed ascending-id order
[1, 2] (the SQL has no secondary sort key). -/
theorem c5_tie_break_counterexample :
    resultIds (match_movies distW [mkRow 2 (some [7]), mkRow 1 (some [7])] [7] 10) = [2, 1] ∧
    resultIds (match_movies distW [mkRow 2 (some [7]), mkRow 1 (some [7])] [7] 10) ≠ [1, 2] ∧
    (toMatchRow distW [7] (mkRow 2 (some [7]))).similarity =
      (toMatchRow distW [7] (mkRow 1 (some [7]))).similarity := by
  refine ⟨rfl, ?_, rfl⟩
  intro hcontra
  rw [show resultIds (match_movies distW [mkRow 2 (some [7]), mkRow 1 (some [7])] [7] 10) =
    [2, 1] from rfl] at hcontra
  exact absurd hcontra (by decide)

/-- Inserting a row whose distance to the query differs from d leaves the
subsequence of rows at distance d unchanged. -/
theorem orderedInsert_filter_ties_of_ne (dist : List ℚ → List ℚ → ℚ) (q : List ℚ)
    (d : ℚ) (x : MovieRow) (t : List MovieRow)
    (hx : dist (x.embedding.getD []) q ≠ d) :
    (List.orderedInsert (distKey dist q) x t).filter
        (fun m => dist (m.embedding.getD []) q == d) =
      t.filter (fun m => dist (m.embedding.getD []) q == d) := by
  induction t with
  | nil => simp [List.orderedInsert, hx]
  | cons y ys ih =>
      simp only [List.orderedInsert]
      by_cases h : distKey dist q x y
      · rw [if_pos h]
        simp [List.filter_cons, hx]
      · rw [if_neg h]
        simp only [List.filter_cons, ih]

/-- Inserting a row at distance d from the query puts it in front of the
rows at distance d already present: every row the insertion walks past is
strictly closer to the query. -/
theorem orderedInsert_filter_ties_of_eq (dist : List ℚ → List ℚ → ℚ) (q : List ℚ)
    (d : ℚ) (x : MovieRow) (t : List MovieRow)
    (hx : dist (x.embedding.getD []) q = d) :
    (List.orderedInsert (distKey dist q) x t).filter
        (fun m => dist (m.embedding.getD []) q == d) =
      x :: t.filter (fun m => dist (m.embedding.getD []) q == d) := by
  induction t with
  | nil => simp [List.orderedInsert, hx]
  | cons y ys ih =>
      simp only [List.orderedInsert]
      by_cases h : distKey dist q x y
      · rw [if_pos h]
        simp [List.filter_cons, hx]
      · rw [if_neg h]
        have hy : dist (y.embedding.getD []) q ≠ d := fun hyd =>
          h (show dist (x.embedding.getD []) q ≤ dist (y.embedding.getD []) q by
            rw [hx, hyd])
        simp [List.filter_cons, hy, ih]

/-- Stability of the order-by-distance sort: the rows at any one distance d
from the query appear in the sorted list in exactly their table order. -/
theorem insertionSort_filter_ties (dist : List ℚ → List ℚ → ℚ) (q : List ℚ)
    (d : ℚ) (l : List MovieRow) :
    (l.insertionSort (distKey dist q)).filter
        (fun m => dist (m.embedding.getD []) q == d) =
      l.filter (fun m => dist (m.embedding.getD []) q == d) := by
  induction l with
  | nil => rfl
  | cons x xs ih =>
      simp only [List.insertionSort]
      by_cases hx : dist (x.embedding.getD []) q = d
      · rw [orderedInsert_filter_ties_of_eq dist q d x _ hx, ih, List.filter_cons]
        simp [hx]
      · rw [orderedInsert_filter_ties_of_ne dist q d x _ hx, ih, List.filter_cons]
        simp [hx]

/-- C5 amended: for every catalog and every query whose limit covers the
rows with a non-null vector, the rows at any one distance d from the query
vector are all returned, each with similarity 1 - d, and the subsequence of
returned rows at that similarity is exactly the table-ordered projection of
the tied rows — the SQL specifies no secondary sort key, so ties keep the
table's row order (the model's stable order), not ascending id. -/
theorem c5_tie_rows_all_returned_in_table_order (dist : List ℚ → List ℚ → ℚ)
    (store : List MovieRow) (q : List ℚ) (k : Int) (d : ℚ)
    (hk : ((store.filter fun m => m.embedding.isSome).length : Int) ≤ k) :
    ∃ rows, match_movies dist store q k = .ok rows ∧
      (∀ m ∈ store, ∀ v, m.embedding = some v → dist v q = d →
        toMatchRow dist q m ∈ rows ∧ (toMatchRow dist q m).similarity = 1 - d) ∧
      rows.filter (fun r => r.similarity == 1 - d) =
        ((store.filter fun m => m.embedding.isSome).filter
          (fun m => dist (m.embedding.getD []) q == d)).map (toMatchRow dist q) := by
  have hnneg : ¬ k < 0 := by omega
  have hlen : ((store.filter fun m => m.embedding.isSome).insertionSort
      (distKey dist q)).length = (store.filter fun m => m.embedding.isSome).length :=
    (List.perm_insertionSort (distKey dist q) _).length_eq
  have htake : (((store.filter fun m => m.embedding.isSome).insertionSort
      (distKey dist q)).take k.toNat) =
      ((store.filter fun m => m.embedding.isSome).insertionSort (distKey dist q)) :=
    List.take_of_length_le (by rw [hlen]; omega)
  refine ⟨_, match_movies_eq_ok dist store q k hnneg, ?_, ?_⟩
  · intro m hm v hv hd
    have hmem : m ∈ (store.filter fun m => m.embedding.isSome) :=
      List.mem_filter.mpr ⟨hm, by rw [hv]; rfl⟩
    have hmem' : m ∈ ((store.filter fun m => m.embedding.isSome).insertionSort
        (distKey dist q)) :=
      (List.perm_insertionSort (distKey dist q) _).mem_iff.mpr hmem
    rw [htake]
    exact ⟨List.mem_map_of_mem (toMatchRow dist q) hmem',
      by simp [toMatchRow, hv, hd]⟩
  · rw [htake, List.filter_map]
    congr 1
    have hcongr : List.filter ((fun r => r.similarity == 1 - d) ∘ toMatchRow dist q)
        ((store.filter fun m => m.embedding.isSome).insertionSort (distKey dist q)) =
        List.filter (fun m => dist (m.embedding.getD []) q == d)
          ((store.filter fun m => m.embedding.isSome).insertionSort (distKey dist q)) :=
      List.filter_congr fun m _ => by simp [toMatchRow, Function.comp, sub_right_inj]
    rw [hcongr]
    exact insertionSort_filter_ties dist q d _

/-- C5 witness: a two-row catalog in table order [id 2, id 1], both rows at
distance 0 from the query, searched with limit 10. -/
theorem c5_tie_rows_all_returned_in_table_order_witness :
    ((([mkRow 2 (some [7]), mkRow 1 (some [7])].filter
        fun m => m.embedding.isSome).length : Int) ≤ 10) ∧
    (∃ rows,
      match_movies distW [mkRow 2 (some [7]), mkRow 1 (some [7])] [7] 10 = .ok rows ∧
      (∀ m ∈ [mkRow 2 (some [7]), mkRow 1 (some [7])], ∀ v, m.embedding = some v →
        distW v [7] = 0 →
        toMatchRow distW [7] m ∈ rows ∧ (toMatchRow distW [7] m).similarity = 1 - 0) ∧
      rows.filter (fun r => r.similarity == 1 - 0) =
        (([mkRow 2 (some [7]), mkRow 1 (some [7])].filter
          fun m => m.embedding.isSome).filter
            (fun m => distW (m.embedding.getD []) [7] == 0)).map (toMatchRow distW [7])) :=
  ⟨by decide, c5_tie_rows_all_returned_in_table_order distW
    [mkRow 2 (some [7]), mkRow 1 (some [7])] [7] 10 0 (by decide)⟩

/-- C6 counterexample: a /search request with limit 0 and a non-empty query
is answered 200 with an empty result list — a successful zero-result
response, not a validation error. -/
theorem c6_zero_limit_success_counterexample :
    (search_movies embedW distW [mkRow 1 (some [1])] { query := "a", limit := 0 }).1 =
      .ok [] := by rfl

/-- C6 amended: the handler validates neither limit bound: limit 0 yields a
successful empty response (LIMIT 0 returns no rows); a negative limit makes
the store reject the LIMIT and surfaces as a 500, not a 4xx validation
error; and a limit at least the number of rows with a non-null vector
returns all those rows. -/
theorem c6_limit_unvalidated_behaviour (embed : String → List ℚ)
    (dist : List ℚ → List ℚ → ℚ) (store : List MovieRow) (q : String) (k : Int)
    (hq : pyStrip q ≠ "")
    (hk : ((store.filter fun m => m.embedding.isSome).length : Int) ≤ k) :
    (search_movies embed dist store { query := q, limit := 0 }).1 = .ok [] ∧
    (search_movies embed dist store { query := q, limit := -1 }).1 =
      .httpError 500 "Internal Server Error" ∧
    ∃ results, (search_movies embed dist store { query := q, limit := k }).1 = .ok results ∧
      results.length = (store.filter fun m => m.embedding.isSome).length := by
  have hk0 : ¬ k < 0 := by omega
  refine ⟨?_, ?_, ?_⟩
  · rw [search_movies_ok_eq embed dist store { query := q, limit := 0 } hq (show ¬ (0:Int) < 0 by decide)]
    simp
  · simp [search_movies, hq, match_movies]
  · rw [search_movies_ok_eq embed dist store { query := q, limit := k } hq hk0]
    refine ⟨_, rfl, ?_⟩
    rw [List.length_map, List.length_map, List.length_take,
      (List.perm_insertionSort (distKey dist (embed q)) _).length_eq]
    show min k.toNat (store.filter fun m => m.embedding.isSome).length =
      (store.filter fun m => m.embedding.isSome).length
    omega

/-- C6 witness: a one-row store searched with limit 5. -/
theorem c6_limit_unvalidated_behaviour_witness :
    (pyStrip "a" ≠ "") ∧
      ((search_movies embedW distW [mkRow 1 (some [1])] { query := "a", limit := 0 }).1 =
        .ok [] ∧
      (search_movies embedW distW [mkRow 1 (some [1])] { query := "a", limit := -1 }).1 =
        .httpError 500 "Internal Server Error" ∧
      ∃ results,
        (search_movies embedW distW [mkRow 1 (some [1])] { query := "a", limit := 5 }).1 =
          .ok results ∧
        results.length = ([mkRow 1 (some [1])].filter fun m => m.embedding.isSome).length) :=
  ⟨by decide, c6_limit_unvalidated_behaviour embedW distW [mkRow 1 (some [1])] "a" 5
    (by decide) (by decide)⟩

/-- C2: the ingestion script and the query service do share one embedding
model identifier, whose documented dimensionality is 3072 — but the deployed
store (match_movies argument and movies.embedding column) declares dimension
1536, so the declared store dimension does not equal the dimension of the
vectors both pipelines produce. -/
theorem c2_store_dimension_contradicts_embedding_model :
    ingestEmbeddingModel = backendEmbeddingModel ∧
    embeddingModelDim ingestEmbeddingModel = 3072 ∧
    matchMoviesDeclaredDim ≠ embeddingModelDim ingestEmbeddingModel ∧
    moviesTableDeclaredDim ≠ embeddingModelDim backendEmbeddingModel := by
  refine ⟨rfl, rfl, ?_, ?_⟩ <;> decide

/-- C8: the overview-length threshold is strict: a record whose overview has
exactly 10 characters fails the filter, and one with an 11-character
overview (with an id and a title present) passes it. -/
theorem c8_overview_threshold_strictly_greater_than_ten (r : SrcRow) (o : String)
    (ho : r.overview = some o) :
    (o.length = 10 → validMovie r = false) ∧
    (o.length = 11 → r.id.isSome → r.title.isSome → validMovie r = true) := by
  constructor
  · intro h10
    simp [validMovie, ho, h10]
  · intro h11 hid htitle
    simp [validMovie, ho, h11, hid, htitle]

/-- C8 witness: the 10-character overview "0123456789" is rejected and the
11-character overview "0123456789x" is accepted. -/
theorem c8_overview_threshold_strictly_greater_than_ten_witness :
    validMovie (srcRowWithOverview "0123456789") = false ∧
      validMovie (srcRowWithOverview "0123456789x") = true :=
  ⟨(c8_overview_threshold_strictly_greater_than_ten
      (srcRowWithOverview "0123456789") "0123456789" rfl).1 (by decide),
   (c8_overview_threshold_strictly_greater_than_ten
      (srcRowWithOverview "0123456789x") "0123456789x" rfl).2 (by decide)
      (by decide) (by decide)⟩

/-- hasId in terms of membership. -/
theorem hasId_iff (i : Int) (s : List MovieRow) :
    hasId i s = true ↔ ∃ x ∈ s, x.id = i := by
  simp [hasId]

/-- Overwriting with a record of a different id leaves hasId unchanged. -/
theorem hasId_overwriteById (r : MovieRow) (s : List MovieRow) (i : Int) (h : i ≠ r.id) :
    hasId i (overwriteById r s) = hasId i s := by
  unfold hasId overwriteById
  induction s with
  | nil => rfl
  | cons x xs ih =>
      simp only [List.map_cons, List.any_cons, ih]
      by_cases hxr : x.id = r.id
      · simp [hxr, h, Ne.symm h]
      · simp [hxr]

/-- After upserting a record its id is present. -/
theorem hasId_upsert_self (r : MovieRow) (s : List MovieRow) :
    hasId r.id (upsert r s) = true := by
  unfold upsert
  by_cases h : hasId r.id s
  · rw [if_pos h]
    rcases (hasId_iff _ _).mp h with ⟨x, hx, hxe⟩
    refine (hasId_iff _ _).mpr ⟨r, List.mem_map.mpr ⟨x, hx, ?_⟩, rfl⟩
    simp [hxe]
  · rw [if_neg h]
    exact (hasId_iff _ _).mpr ⟨r, by simp, rfl⟩

/-- Upserting never removes an id already present. -/
theorem hasId_upsert_mono (i : Int) (r : MovieRow) (s : List MovieRow)
    (h : hasId i s = true) : hasId i (upsert r s) = true := by
  rcases (hasId_iff i s).mp h with ⟨x, hx, hxe⟩
  unfold upsert
  by_cases hh : hasId r.id s
  · rw [if_pos hh]
    apply (hasId_iff _ _).mpr
    by_cases hxr : x.id = r.id
    · exact ⟨r, List.mem_map.mpr ⟨x, hx, by simp [hxr]⟩, by rw [← hxr, hxe]⟩
    · exact ⟨x, List.mem_map.mpr ⟨x, hx, by simp [hxr]⟩, hxe⟩
  · rw [if_neg hh]
    exact (hasId_iff _ _).mpr ⟨x, List.mem_append_left _ hx, hxe⟩

/-- Overwriting twice with the same record is overwriting once. -/
theorem overwriteById_overwriteById (r : MovieRow) (s : List MovieRow) :
    overwriteById r (overwriteById r s) = overwriteById r s := by
  unfold overwriteById
  rw [List.map_map]
  apply List.map_congr_left
  intro x _
  by_cases hxr : x.id = r.id <;> simp [Function.comp, hxr]

/-- Overwriting by an id that is absent is the identity. -/
theorem overwriteById_of_not_hasId (r : MovieRow) (s : List MovieRow)
    (h : hasId r.id s = false) : overwriteById r s = s := by
  have hall : ∀ x ∈ s, x.id ≠ r.id := by
    intro x hx hxe
    have : hasId r.id s = true := (hasId_iff _ _).mpr ⟨x, hx, hxe⟩
    rw [h] at this
    cases this
  unfold overwriteById
  calc s.map (fun x => if x.id == r.id then r else x)
      = s.map id := List.map_congr_left fun x hx => by simp [hall x hx]
    _ = s := List.map_id s

/-- With the id present, upsert is the in-place overwrite. -/
theorem upsert_eq_overwriteById (r : MovieRow) (s : List MovieRow)
    (h : hasId r.id s = true) : upsert r s = overwriteById r s := by
  unfold upsert
  rw [if_pos h]

/-- Overwriting right after upserting the same record changes nothing. -/
theorem overwriteById_upsert_self (r : MovieRow) (s : List MovieRow) :
    overwriteById r (upsert r s) = upsert r s := by
  unfold upsert
  by_cases h : hasId r.id s
  · rw [if_pos h]
    exact overwriteById_overwriteById r s
  · rw [if_neg h]
    have hfalse : hasId r.id s = false := by
      simpa using h
    show overwriteById r (s ++ [r]) = s ++ [r]
    unfold overwriteById
    rw [List.map_append]
    rw [show List.map (fun x => if x.id == r.id then r else x) [r] = [r] by simp]
    rw [show List.map (fun x => if x.id == r.id then r else x) s = s from
      overwriteById_of_not_hasId r s hfalse]

/-- Overwriting by one id commutes with upserting a record of another id. -/
theorem overwriteById_upsert_comm (r x : MovieRow) (s : List MovieRow)
    (hne : x.id ≠ r.id) :
    overwriteById r (upsert x s) = upsert x (overwriteById r s) := by
  unfold upsert
  have hh : hasId x.id (overwriteById r s) = hasId x.id s :=
    hasId_overwriteById r s x.id hne
  by_cases h : hasId x.id s
  · rw [if_pos h, if_pos (by rw [hh]; exact h)]
    unfold overwriteById
    rw [List.map_map, List.map_map]
    apply List.map_congr_left
    intro e _
    by_cases hex : e.id = x.id
    · have her : e.id ≠ r.id := by rw [hex]; exact hne
      simp [Function.comp, hex, her, hne]
    · by_cases her : e.id = r.id
      · simp [Function.comp, hex, her, Ne.symm hne]
      · simp [Function.comp, hex, her]
  · rw [if_neg h, if_neg (by rw [hh]; exact h)]
    show overwriteById r (s ++ [x]) = overwriteById r s ++ [x]
    unfold overwriteById
    rw [List.map_append]
    congr 1
    simp [hne]

/-- Ids survive any sequence of upserts. -/
theorem hasId_upsertAll_mono (i : Int) (rs : List MovieRow) (s : List MovieRow)
    (h : hasId i s = true) : hasId i (upsertAll rs s) = true := by
  induction rs generalizing s with
  | nil => exact h
  | cons r rs ih => exact ih _ (hasId_upsert_mono i r s h)

/-- Overwriting by an id none of the records carry commutes with upserting
all of them. -/
theorem overwriteById_upsertAll_comm (r : MovieRow) (rs : List MovieRow)
    (s : List MovieRow) (h : ∀ x ∈ rs, x.id ≠ r.id) :
    overwriteById r (upsertAll rs s) = upsertAll rs (overwriteById r s) := by
  induction rs generalizing s with
  | nil => rfl
  | cons x rs ih =>
      show overwriteById r (upsertAll rs (upsert x s)) =
        upsertAll rs (upsert x (overwriteById r s))
      rw [ih _ fun y hy => h y (List.mem_cons_of_mem x hy)]
      rw [overwriteById_upsert_comm r x s (h x (List.mem_cons_self x rs))]

/-- Replaying a batch of records with pairwise-distinct ids over a store
that already absorbed it changes nothing. -/
theorem upsertAll_idem (rs : List MovieRow) (s : List MovieRow)
    (h : (rs.map MovieRow.id).Nodup) :
    upsertAll rs (upsertAll rs s) = upsertAll rs s := by
  induction rs generalizing s with
  | nil => rfl
  | cons r rs ih =>
      have hr : r.id ∉ rs.map MovieRow.id := (List.nodup_cons.mp h).1
      have hrs : (rs.map MovieRow.id).Nodup := (List.nodup_cons.mp h).2
      have hne : ∀ x ∈ rs, x.id ≠ r.id := by
        intro x hx hxe
        exact hr (hxe ▸ List.mem_map_of_mem MovieRow.id hx)
      show upsertAll rs (upsert r (upsertAll rs (upsert r s))) = upsertAll rs (upsert r s)
      rw [upsert_eq_overwriteById r _ (hasId_upsertAll_mono _ rs _ (hasId_upsert_self r s))]
      rw [overwriteById_upsertAll_comm r rs _ hne]
      rw [overwriteById_upsert_self r s]
      exact ih _ hrs

/-- The deduplicated records have pairwise-distinct ids, none of them among
the ids already seen. -/
theorem dropDupById_spec (l : List SrcRow) (seen : List Int) :
    ((dropDupById l seen).map (fun r => r.id.getD 0)).Nodup ∧
      ∀ r ∈ dropDupById l seen, r.id.getD 0 ∉ seen := by
  induction l generalizing seen with
  | nil => simp [dropDupById]
  | cons r rs ih =>
      by_cases h : r.id.getD 0 ∈ seen
      · rw [show dropDupById (r :: rs) seen = dropDupById rs seen from by
          simp [dropDupById, h]]
        exact ih seen
      · rw [show dropDupById (r :: rs) seen =
            r :: dropDupById rs (r.id.getD 0 :: seen) from by simp [dropDupById, h]]
        obtain ⟨h1, h2⟩ := ih (r.id.getD 0 :: seen)
        refine ⟨?_, ?_⟩
        · rw [List.map_cons, List.nodup_cons]
          refine ⟨?_, h1⟩
          intro hmem
          obtain ⟨x, hx, hxe⟩ := List.mem_map.mp hmem
          exact h2 x hx (by rw [hxe]; exact List.mem_cons_self _ _)
        · intro x hx
          rcases List.mem_cons.mp hx with rfl | hx'
          · exact h
          · intro hseen
            exact h2 x hx' (List.mem_cons_of_mem _ hseen)

/-- C9: running the full ingestion pipeline twice in a row on the same
source data (and with the same deterministic embedding function) leaves the
store exactly as after the first run: the id-keyed upsert is idempotent and
the second run overwrites rows in place. -/
theorem c9_double_ingestion_is_single_ingestion (embed : String → List ℚ)
    (src : List SrcRow) (store : List MovieRow) :
    ingestRun embed src (ingestRun embed src store) = ingestRun embed src store := by
  unfold ingestRun
  apply upsertAll_idem
  rw [List.map_map]
  exact (dropDupById_spec (src.filter validMovie) []).1
